import Mathlib

/-!
Shallow embedding of `src/server.js` (Express + Mongoose food-ordering backend).

The embedding covers the credential and session subsystem (signup/signin
handlers, JWT issue/verify, the `authenticateJWT` guard) and the order
ledger (order creation, status update, removal, and the per-identity and
global listing queries).  Cryptographic primitives (`jsonwebtoken`,
`bcryptjs`) are external libraries; they are modelled symbolically: an
HMAC signature is the pair (key, payload) and a bcrypt hash records the
hashed password together with its salt, with comparison checking the
recorded password.  MongoDB documents are modelled as Lean lists carried
in an explicit store value; `timestamps: true` is modelled by an explicit
clock argument `now` supplied to each mutating operation.
-/

/-- The order status enumeration of `orderSchema.status`
(`enum: ['Pending', 'Delivered', 'Rejected']`, server.js lines 58-62). -/
inductive OrderStatus
  | Pending
  | Delivered
  | Rejected
deriving DecidableEq, Repr

/-- The embedded purchaser snapshot `userDetails` of `orderSchema`
(server.js lines 44-48). -/
structure UserDetails where
  name : String
  email : String
deriving DecidableEq, Repr

/-- One entry of the `orderDetails` array of `orderSchema`
(server.js lines 49-55).  `foodPrice` is a JS Number; the claims under
study never depend on fractional prices, so it is embedded as `Int`. -/
structure OrderLine where
  foodName : String
  foodPrice : Int
  quantity : Nat
deriving DecidableEq, Repr

/-- An order document (server.js lines 43-63).  `id` embeds Mongo `_id`;
`createdAt` and `updatedAt` come from the `timestamps: true` option. -/
structure Order where
  id : Nat
  userDetails : UserDetails
  orderDetails : List OrderLine
  totalAmount : Int
  paymentMethod : String
  status : OrderStatus
  createdAt : Nat
  updatedAt : Nat
deriving DecidableEq, Repr

/-- The orders collection.  `nextId` embeds Mongo's fresh-`_id`
generation for newly inserted documents. -/
structure Store where
  orders : List Order
  nextId : Nat
deriving DecidableEq, Repr

/-- The identity claim embedded in a session token:
`jwt.sign({ email: user.email }, JWT_SECRET)` (server.js line 309). -/
structure Claim where
  email : String
deriving DecidableEq, Repr

/-- A decoded JWT, modelled symbolically: `mac` is the HMAC signature,
idealised as the pair of the signing key and the signed payload. -/
structure Token where
  payload : Claim
  mac : String × Claim
deriving DecidableEq, Repr

/-- The process-wide signing key (server.js line 79). -/
def JWT_SECRET : String :=
  "dc5e41e784f5ba8ce43921796f63300d056dc05dde9630afeef50249a2294863ac92a11433ac5c9e44215e694282ba2b1c11001b78000463c6bac5910415a841"

/-- `jwt.sign(claim, key)`: issue a token whose signature binds the key
to the payload (symbolic HMAC model). -/
def jwtSign (c : Claim) (key : String) : Token :=
  { payload := c, mac := (key, c) }

/-- Result of `jwt.verify`: either the recovered claim or an error. -/
inductive VerifyResult
  | ok (c : Claim)
  | invalidToken
deriving DecidableEq, Repr

/-- `jwt.verify(token, key)`: succeeds exactly when the token's
signature is a genuine signature of its own payload under `key`. -/
def jwtVerify (t : Token) (key : String) : VerifyResult :=
  if t.mac = (key, t.payload) then .ok t.payload else .invalidToken

/-- A bcrypt hash as produced by `bcrypt.hash(password, 10)`: the salt
is random per call, so it is an explicit parameter; the hash is
idealised as injectively recording password and salt. -/
structure Hash where
  pw : String
  salt : Nat
deriving DecidableEq, Repr

/-- `bcrypt.hash(password, salt)` (ideal one-way function model). -/
def bcryptHash (pw : String) (salt : Nat) : Hash :=
  { pw := pw, salt := salt }

/-- `bcrypt.compare(candidate, stored)`: true iff the stored hash was
computed from the candidate password. -/
def bcryptCompare (candidate : String) (h : Hash) : Bool :=
  h.pw == candidate

/-- A user document of `userSchema` (server.js lines 66-72). -/
structure User where
  name : String
  mobile : String
  email : String
  password : Hash
  profileImage : Option String
deriving DecidableEq, Repr

/-- Outcome of the `authenticateJWT` middleware (server.js lines
108-117). -/
inductive AuthResult
  | unauthenticated
  | forbidden
  | authenticated (user : Claim)
deriving DecidableEq, Repr

/-- One step of splitting a character list on the space character,
accumulating the word list to the right. -/
def splitSpaceStep (c : Char) (acc : List String) : List String :=
  match acc with
  | [] => [""]
  | w :: ws => if c = ' ' then "" :: w :: ws else (String.singleton c ++ w) :: ws

/-- JS `s.split(' ')`: cut the string at every single space character,
keeping empty fragments (so `"a  b"` gives `["a", "", "b"]` and `""`
gives `[""]`), exactly as `String.prototype.split` with a one-character
separator does. -/
def splitOnSpace (s : String) : List String :=
  s.toList.foldr splitSpaceStep [""]

/-- `req.header('Authorization')?.split(' ')[1]` (server.js line 109):
the bearer credential is the second space-separated word of the
Authorization header, when both the header and that word exist. -/
def extractBearer (header : Option String) : Option String :=
  header.bind fun h => (splitOnSpace h).get? 1

/-- The `authenticateJWT` middleware (server.js lines 108-117).  The
wire codec of the JWT library (parsing the compact serialization back
into header/payload/signature) is abstracted as the `decode` argument;
`jwt.verify(tokenStr, JWT_SECRET, cb)` is `decode` followed by the
symbolic signature check, and a string that does not decode is an
invalid token.  The guard's `if (!token)` is a JS falsiness test: it
fires both when the second word is absent (`undefined`) and when it is
the empty string (e.g. a header of `"Bearer "` with a trailing space),
answering 401 (`unauthenticated`) in either case; a present, nonempty
credential that fails verification gives 403 (`forbidden`), and success
attaches the claim to `req.user` and continues (`authenticated`). -/
def authenticateJWT (decode : String → Option Token) (header : Option String) : AuthResult :=
  match extractBearer header with
  | none => .unauthenticated
  | some tokenStr =>
    if tokenStr = "" then .unauthenticated
    else
      match decode tokenStr with
      | none => .forbidden
      | some t =>
        match jwtVerify t JWT_SECRET with
        | .invalidToken => .forbidden
        | .ok c => .authenticated c

/-- `POST /orders` (server.js lines 214-240): builds the new order from
the request body with `status: 'Pending'` and appends it; `timestamps`
sets both timestamps to the current time.  Returns the new store and
the created document. -/
def placeOrder (s : Store) (ud : UserDetails) (lines : List OrderLine)
    (total : Int) (pm : String) (now : Nat) : Store × Order :=
  let o : Order :=
    { id := s.nextId, userDetails := ud, orderDetails := lines,
      totalAmount := total, paymentMethod := pm, status := .Pending,
      createdAt := now, updatedAt := now }
  ({ orders := s.orders ++ [o], nextId := s.nextId + 1 }, o)

/-- The HTTP layer of `POST /orders`: the handler performs no input
validation, so every well-typed request reaches `newOrder.save()` and
answers 201 (the only other branch, the catch-all 500, fires on store
failure, which is external to this model). -/
def postOrders (s : Store) (ud : UserDetails) (lines : List OrderLine)
    (total : Int) (pm : String) (now : Nat) : Store × Nat :=
  ((placeOrder s ud lines total pm now).1, 201)

/-- `['Pending', 'Delivered', 'Rejected'].includes(status)` combined
with the parse of the accepted string (server.js line 247). -/
def parseStatus (st : String) : Option OrderStatus :=
  if st = "Pending" then some .Pending
  else if st = "Delivered" then some .Delivered
  else if st = "Rejected" then some .Rejected
  else none

/-- Outcome of `PUT /orders/:id` (server.js lines 242-273). -/
inductive SetStatusResult
  | invalidStatus
  | notFound
  | ok (updated : Order)
deriving DecidableEq, Repr

/-- `PUT /orders/:id` (server.js lines 242-273): reject a status string
outside the enumerated set with 400 before touching the store; then
`findByIdAndUpdate(id, { status }, { new: true })` updates the matched
document (refreshing `updatedAt` via the timestamps option) and returns
it, or 404 when no document has that id. -/
def setStatus (s : Store) (id : Nat) (st : String) (now : Nat) : Store × SetStatusResult :=
  match parseStatus st with
  | none => (s, .invalidStatus)
  | some newSt =>
    match s.orders.find? (fun o => o.id == id) with
    | none => (s, .notFound)
    | some o =>
      let o' : Order := { o with status := newSt, updatedAt := now }
      ({ orders := s.orders.map (fun p => if p.id == id then o' else p),
         nextId := s.nextId }, .ok o')

/-- `DELETE /orders/:id` (server.js lines 276-286):
`findByIdAndDelete` removes the matched document and returns it, or
404 (`none`) when absent. -/
def removeOrder (s : Store) (id : Nat) : Store × Option Order :=
  match s.orders.find? (fun o => o.id == id) with
  | none => (s, none)
  | some o =>
    ({ orders := s.orders.filter (fun p => !(p.id == id)), nextId := s.nextId }, some o)

/-- Non-increasing creation time: the sort key of `.sort({ createdAt: -1 })`. -/
def createdGE (a b : Order) : Prop :=
  b.createdAt ≤ a.createdAt

instance : DecidableRel createdGE :=
  fun a b => Nat.decLe b.createdAt a.createdAt

instance : IsTotal Order createdGE :=
  ⟨fun a b => Nat.le_total b.createdAt a.createdAt⟩

instance : IsTrans Order createdGE :=
  ⟨fun _ _ _ hab hbc => Nat.le_trans hbc hab⟩

/-- `GET /orders` after the guard (server.js lines 180-195):
`Order.find({'userDetails.email': email}).sort({ createdAt: -1 })`,
answering 404 (`none`) when the resulting sequence is empty. -/
def listForIdentity (s : Store) (email : String) : Option (List Order) :=
  let l := List.insertionSort createdGE
    (s.orders.filter (fun o => o.userDetails.email == email))
  if l.isEmpty then none else some l

/-- `GET /allorders` (server.js lines 197-210): all orders, newest
first, 404 (`none`) when there are none. -/
def listAll (s : Store) : Option (List Order) :=
  let l := List.insertionSort createdGE s.orders
  if l.isEmpty then none else some l

/-- The mutating operations of the order ledger, used to state that no
operation other than the status update changes an order's status. -/
inductive Op
  | placeOp (ud : UserDetails) (lines : List OrderLine) (total : Int) (pm : String) (now : Nat)
  | setStatusOp (id : Nat) (st : String) (now : Nat)
  | removeOp (id : Nat)
deriving DecidableEq, Repr

/-- The store effect of one ledger operation. -/
def applyOp (s : Store) : Op → Store
  | .placeOp ud lines total pm now => (placeOrder s ud lines total pm now).1
  | .setStatusOp id st now => (setStatus s id st now).1
  | .removeOp id => (removeOrder s id).1

/-- Store well-formedness: every id is below the fresh-id counter and
ids are pairwise distinct (Mongo `_id` uniqueness). -/
def WF (s : Store) : Prop :=
  (∀ o ∈ s.orders, o.id < s.nextId) ∧ s.orders.Pairwise (fun a b => a.id ≠ b.id)

/-- Outcome of `POST /signup` and `POST /adminsignup`. -/
inductive SignupResult
  | duplicate
  | created (token : Token) (name : String) (email : String)
deriving DecidableEq, Repr

/-- `POST /signup` (server.js lines 290-317):
`User.findOne({$or: [{email}, {mobile}]})` detects a collision and
answers 400 leaving the collection unchanged; otherwise the password is
bcrypt-hashed, the user saved, and a token on `{ email: user.email }`
is signed with `JWT_SECRET` and returned with 201. -/
def signup (users : List User) (name mobile email password : String)
    (salt : Nat) (profileImage : Option String) : List User × SignupResult :=
  match users.find? (fun u => u.email == email || u.mobile == mobile) with
  | some _ => (users, .duplicate)
  | none =>
    let u : User :=
      { name := name, mobile := mobile, email := email,
        password := bcryptHash password salt, profileImage := profileImage }
    (users ++ [u], .created (jwtSign { email := email } JWT_SECRET) name email)

/-- `POST /adminsignup` (server.js lines 320-347): the admin variant,
operating on the same `User` collection. -/
def adminsignup (users : List User) (name mobile email password : String)
    (salt : Nat) (profileImage : Option String) : List User × SignupResult :=
  match users.find? (fun u => u.email == email || u.mobile == mobile) with
  | some _ => (users, .duplicate)
  | none =>
    let u : User :=
      { name := name, mobile := mobile, email := email,
        password := bcryptHash password salt, profileImage := profileImage }
    (users ++ [u], .created (jwtSign { email := email } JWT_SECRET) name email)

/-- Outcome of `POST /signin` and `POST /adminsignin`. -/
inductive SigninResult
  | invalidCredentials
  | ok (token : Token) (name : String) (email : String)
deriving DecidableEq, Repr

/-- `POST /signin` (server.js lines 354-371): look the identifier up as
email or mobile; 401 when absent or when `bcrypt.compare` rejects the
password; otherwise 200 with a fresh token on the user's email. -/
def signin (users : List User) (identifier password : String) : SigninResult :=
  match users.find? (fun u => u.email == identifier || u.mobile == identifier) with
  | none => .invalidCredentials
  | some u =>
    if bcryptCompare password u.password then
      .ok (jwtSign { email := u.email } JWT_SECRET) u.name u.email
    else
      .invalidCredentials

/-- `POST /adminsignin` (server.js lines 373-390): the admin variant,
querying the same `User` collection. -/
def adminsignin (users : List User) (identifier password : String) : SigninResult :=
  match users.find? (fun u => u.email == identifier || u.mobile == identifier) with
  | none => .invalidCredentials
  | some u =>
    if bcryptCompare password u.password then
      .ok (jwtSign { email := u.email } JWT_SECRET) u.name u.email
    else
      .invalidCredentials

/-- Every stored order carrying the given id has the given status, and
the id sits below the fresh-id counter, so later inserts cannot reuse
it.  This is the invariant tracked to show that only the status-update
operation can change an order's status. -/
def StatusAt (s : Store) (oid : Nat) (st : OrderStatus) : Prop :=
  oid < s.nextId ∧ ∀ o ∈ s.orders, o.id = oid → o.status = st

/-! Sample data used by the concrete witnesses. -/

/-- A sample order owned by `a@x.com`, created at time 1. -/
def sampleOrder1 : Order :=
  { id := 0, userDetails := { name := "Alice", email := "a@x.com" },
    orderDetails := [{ foodName := "Burger", foodPrice := 5, quantity := 2 }],
    totalAmount := 10, paymentMethod := "cash", status := .Pending,
    createdAt := 1, updatedAt := 1 }

/-- A sample order owned by `b@x.com`, created at time 3. -/
def sampleOrder2 : Order :=
  { id := 1, userDetails := { name := "Bob", email := "b@x.com" },
    orderDetails := [], totalAmount := 3, paymentMethod := "card",
    status := .Delivered, createdAt := 3, updatedAt := 4 }

/-- A second sample order owned by `a@x.com`, created at time 5. -/
def sampleOrder3 : Order :=
  { id := 2, userDetails := { name := "Alice", email := "a@x.com" },
    orderDetails := [{ foodName := "Pizza", foodPrice := 8, quantity := 1 }],
    totalAmount := 8, paymentMethod := "cash", status := .Pending,
    createdAt := 5, updatedAt := 5 }

/-- A sample store holding the three sample orders. -/
def sampleStore : Store :=
  { orders := [sampleOrder1, sampleOrder2, sampleOrder3], nextId := 3 }

/-- A sample registered user. -/
def sampleUser : User :=
  { name := "Alice", mobile := "12345", email := "a@x.com",
    password := bcryptHash "pw1" 7, profileImage := none }

/-! Theorems for the claims. -/

/-- C1: verifying a token issued with the process-wide signing key
returns the same claim (round-trip); a tampered token (genuine
signature, altered payload) and a token signed with a foreign key are
both rejected as `InvalidToken`. -/
theorem token_roundtrip_and_reject (c : Claim) (key foreignKey : String) (t : Token)
    (htmac : t.mac = (jwtSign c key).mac) (htpay : t.payload ≠ c)
    (hforeign : foreignKey ≠ key) :
    jwtVerify (jwtSign c key) key = .ok c
    ∧ jwtVerify t key = .invalidToken
    ∧ jwtVerify (jwtSign c foreignKey) key = .invalidToken := by
  refine ⟨by simp [jwtVerify, jwtSign], ?_, ?_⟩
  · have hne : t.mac ≠ (key, t.payload) := by
      rw [htmac]
      simp only [jwtSign]
      intro h
      exact htpay (congrArg Prod.snd h).symm
    simp [jwtVerify, hne]
  · have hne : (jwtSign c foreignKey).mac ≠ (key, (jwtSign c foreignKey).payload) := by
      simp only [jwtSign]
      intro h
      exact hforeign (congrArg Prod.fst h)
    simp [jwtVerify, hne]

/-- Witness for C1 at concrete claims, keys and a concrete tampered token. -/
theorem token_roundtrip_and_reject_witness :
    jwtVerify (jwtSign { email := "a@x.com" } "k1") "k1" = .ok { email := "a@x.com" }
    ∧ jwtVerify { payload := { email := "evil@x.com" }, mac := ("k1", { email := "a@x.com" }) } "k1"
        = .invalidToken
    ∧ jwtVerify (jwtSign { email := "a@x.com" } "k2") "k1" = .invalidToken :=
  token_roundtrip_and_reject { email := "a@x.com" } "k1" "k2"
    { payload := { email := "evil@x.com" }, mac := ("k1", { email := "a@x.com" }) }
    (by decide) (by decide) (by decide)

/-- C2: the Access Guard answers 401 (`unauthenticated`) when no bearer
credential is present in the Authorization header — the extracted word
being absent or empty, matching the JS falsy test `if (!token)` — 403
(`forbidden`) when a nonempty credential is present but fails to decode
or to verify under the process key, and on success attaches the
recovered claim and continues. -/
theorem accessGuard_dispatch (decode : String → Option Token) (header : Option String) :
    ((extractBearer header = none ∨ extractBearer header = some "") →
        authenticateJWT decode header = .unauthenticated)
    ∧ (∀ ts, extractBearer header = some ts → ts ≠ "" → decode ts = none →
        authenticateJWT decode header = .forbidden)
    ∧ (∀ ts t, extractBearer header = some ts → ts ≠ "" → decode ts = some t →
        jwtVerify t JWT_SECRET = .invalidToken →
        authenticateJWT decode header = .forbidden)
    ∧ (∀ ts t c, extractBearer header = some ts → ts ≠ "" → decode ts = some t →
        jwtVerify t JWT_SECRET = .ok c →
        authenticateJWT decode header = .authenticated c) := by
  refine ⟨?_, ?_, ?_, ?_⟩
  · intro h
    rcases h with h | h <;> simp [authenticateJWT, h]
  · intro ts hts hne hd
    simp [authenticateJWT, hts, hne, hd]
  · intro ts t hts hne hd hv
    simp [authenticateJWT, hts, hne, hd, hv]
  · intro ts t c hts hne hd hv
    simp [authenticateJWT, hts, hne, hd, hv]

/-- Witness for C2: a missing header and a header whose second word is
empty (`"Bearer "`) are both 401, an undecodable credential is 403,
and a well-signed credential authenticates as its claim. -/
theorem accessGuard_dispatch_witness :
    authenticateJWT (fun _ => some (jwtSign { email := "a@x.com" } JWT_SECRET)) none
      = .unauthenticated
    ∧ authenticateJWT (fun _ => some (jwtSign { email := "a@x.com" } JWT_SECRET))
        (some "Bearer ") = .unauthenticated
    ∧ authenticateJWT (fun _ => none) (some "Bearer xyz") = .forbidden
    ∧ authenticateJWT (fun _ => some (jwtSign { email := "a@x.com" } JWT_SECRET))
        (some "Bearer xyz") = .authenticated { email := "a@x.com" } :=
  ⟨(accessGuard_dispatch (fun _ => some (jwtSign { email := "a@x.com" } JWT_SECRET)) none).1
      (Or.inl (by decide)),
   (accessGuard_dispatch (fun _ => some (jwtSign { email := "a@x.com" } JWT_SECRET))
      (some "Bearer ")).1 (Or.inr (by decide)),
   (accessGuard_dispatch (fun _ => none) (some "Bearer xyz")).2.1 "xyz"
      (by decide) (by decide) rfl,
   (accessGuard_dispatch (fun _ => some (jwtSign { email := "a@x.com" } JWT_SECRET))
      (some "Bearer xyz")).2.2.2 "xyz" (jwtSign { email := "a@x.com" } JWT_SECRET)
      { email := "a@x.com" } (by decide) (by decide) rfl (by decide)⟩

/-- C4 counterexample: placing an order with an empty purchaser
snapshot and an empty line list does not fail with a validation error:
the handler answers 201 and a new order record is created. -/
theorem place_empty_accepted_cex :
    (postOrders { orders := [], nextId := 0 } { name := "", email := "" } [] 0 "" 0).2 = 201
    ∧ (postOrders { orders := [], nextId := 0 } { name := "", email := "" } [] 0 "" 0).1.orders
        ≠ [] := by
  decide

/-- C4 amended: the order-placement handler performs no validation of
the purchaser snapshot or the line list; every well-typed request —
including one whose snapshot fields and line list are empty — is
accepted with 201 and appends exactly one new order carrying the given
fields with status `Pending`. -/
theorem place_no_validation (s : Store) (ud : UserDetails) (lines : List OrderLine)
    (total : Int) (pm : String) (now : Nat) :
    postOrders s ud lines total pm now
      = ({ orders := s.orders ++
            [{ id := s.nextId, userDetails := ud, orderDetails := lines,
               totalAmount := total, paymentMethod := pm, status := .Pending,
               createdAt := now, updatedAt := now }],
           nextId := s.nextId + 1 }, 201) :=
  rfl

/-- C5: a status-update request whose status string is outside the
enumerated set is rejected as `invalidStatus` (400) with the store
returned unchanged. -/
theorem setStatus_invalid_unchanged (s : Store) (id : Nat) (st : String) (now : Nat)
    (h1 : st ≠ "Pending") (h2 : st ≠ "Delivered") (h3 : st ≠ "Rejected") :
    setStatus s id st now = (s, .invalidStatus) := by
  simp [setStatus, parseStatus, h1, h2, h3]

/-- Witness for C5: `setStatus` with status `"Bogus"` on a nonempty
store answers `invalidStatus` and leaves the store intact. -/
theorem setStatus_invalid_unchanged_witness :
    setStatus sampleStore 0 "Bogus" 9 = (sampleStore, .invalidStatus) :=
  setStatus_invalid_unchanged sampleStore 0 "Bogus" 9 (by decide) (by decide) (by decide)

/-- C6: with a status string inside the enumerated set, the update
succeeds on any matched order regardless of its current status — the
returned record carries the new status and a refreshed `updatedAt`
timestamp and is persisted in the store — and when no order has the
requested id the update fails with `notFound`. -/
theorem setStatus_valid (s : Store) (id : Nat) (stStr : String) (newSt : OrderStatus)
    (now : Nat) (hp : parseStatus stStr = some newSt) :
    (∀ o, s.orders.find? (fun p => p.id == id) = some o →
        (setStatus s id stStr now).2 = .ok { o with status := newSt, updatedAt := now }
        ∧ { o with status := newSt, updatedAt := now } ∈ (setStatus s id stStr now).1.orders)
    ∧ ((∀ o ∈ s.orders, o.id ≠ id) → setStatus s id stStr now = (s, .notFound)) := by
  constructor
  · intro o ho
    constructor
    · simp [setStatus, hp, ho]
    · simp only [setStatus, hp, ho]
      refine List.mem_map.mpr ⟨o, List.mem_of_find?_eq_some ho, ?_⟩
      have hpred := List.find?_some ho
      simp only at hpred
      simp [hpred]
  · intro h
    have hfind : s.orders.find? (fun p => p.id == id) = none :=
      List.find?_eq_none.mpr fun o ho => by simp [h o ho]
    simp [setStatus, hp, hfind]

/-- Witness for C6: updating sample order 1 (currently `Pending`) to
`Delivered` at time 9 returns the refreshed record and stores it;
updating the absent id 99 fails with `notFound`. -/
theorem setStatus_valid_witness :
    ((setStatus sampleStore 0 "Delivered" 9).2
        = .ok { sampleOrder1 with status := .Delivered, updatedAt := 9 }
      ∧ { sampleOrder1 with status := .Delivered, updatedAt := 9 }
          ∈ (setStatus sampleStore 0 "Delivered" 9).1.orders)
    ∧ setStatus sampleStore 99 "Delivered" 9 = (sampleStore, .notFound) :=
  ⟨(setStatus_valid sampleStore 0 "Delivered" .Delivered 9 (by decide)).1
      sampleOrder1 (by decide),
   (setStatus_valid sampleStore 99 "Delivered" .Delivered 9 (by decide)).2
      (by decide)⟩

/-- C7: the per-identity listing returns exactly the stored orders
whose purchaser-snapshot email equals the requested email, sorted with
creation times non-increasing, and signals `none` (the 404-equivalent
no-orders answer) exactly when no stored order matches. -/
theorem listForIdentity_spec (s : Store) (email : String) :
    (∀ l, listForIdentity s email = some l →
        (∀ o, o ∈ l ↔ o ∈ s.orders ∧ o.userDetails.email = email)
        ∧ l.Sorted createdGE ∧ l ≠ [])
    ∧ (listForIdentity s email = none ↔
        ∀ o ∈ s.orders, o.userDetails.email ≠ email) := by
  constructor
  · intro l hl
    have hl' : l = List.insertionSort createdGE
        (s.orders.filter (fun o => o.userDetails.email == email)) ∧
        ¬ (List.insertionSort createdGE
          (s.orders.filter (fun o => o.userDetails.email == email))).isEmpty = true := by
      by_cases hE : (List.insertionSort createdGE
          (s.orders.filter (fun o => o.userDetails.email == email))).isEmpty = true
      · simp [listForIdentity, hE] at hl
      · simp [listForIdentity, hE] at hl
        exact ⟨hl.symm, hE⟩
    obtain ⟨rfl, hne⟩ := hl'
    refine ⟨?_, List.sorted_insertionSort createdGE _, ?_⟩
    · intro o
      rw [List.mem_insertionSort, List.mem_filter]
      simp
    · intro hnil
      exact hne (by simp [hnil])
  · constructor
    · intro h o ho hmail
      have hmem : o ∈ List.insertionSort createdGE
          (s.orders.filter (fun p => p.userDetails.email == email)) := by
        rw [List.mem_insertionSort, List.mem_filter]
        exact ⟨ho, by simp [hmail]⟩
      by_cases hE : (List.insertionSort createdGE
          (s.orders.filter (fun p => p.userDetails.email == email))).isEmpty = true
      · rw [List.isEmpty_iff] at hE
        rw [hE] at hmem
        exact absurd hmem (List.not_mem_nil o)
      · simp [listForIdentity, hE] at h
    · intro h
      have hfil : s.orders.filter (fun p => p.userDetails.email == email) = [] :=
        List.filter_eq_nil_iff.mpr fun o ho => by simp [h o ho]
      simp [listForIdentity, hfil]

/-- Witness for C7: on the sample store the listing for `a@x.com` is
exactly its two orders, newest first, and the listing for an email with
no orders signals `none`. -/
theorem listForIdentity_spec_witness :
    listForIdentity sampleStore "a@x.com" = some [sampleOrder3, sampleOrder1]
    ∧ List.Sorted createdGE [sampleOrder3, sampleOrder1]
    ∧ (sampleOrder1 ∈ [sampleOrder3, sampleOrder1]
        ↔ sampleOrder1 ∈ sampleStore.orders ∧ sampleOrder1.userDetails.email = "a@x.com")
    ∧ listForIdentity sampleStore "nobody@x.com" = none :=
  ⟨by decide,
   ((listForIdentity_spec sampleStore "a@x.com").1 [sampleOrder3, sampleOrder1]
      (by decide)).2.1,
   ((listForIdentity_spec sampleStore "a@x.com").1 [sampleOrder3, sampleOrder1]
      (by decide)).1 sampleOrder1,
   (listForIdentity_spec sampleStore "nobody@x.com").2.mpr (by decide)⟩

/-- C8: a registration whose mobile or email is already carried by a
stored identity answers `duplicate` (400) and leaves the user
collection unchanged. -/
theorem signup_duplicate_unchanged (users : List User)
    (name mobile email password : String) (salt : Nat) (img : Option String)
    (u : User) (hu : u ∈ users) (hdup : u.mobile = mobile ∨ u.email = email) :
    signup users name mobile email password salt img = (users, .duplicate) := by
  have hex : ∃ v ∈ users, (v.email == email || v.mobile == mobile) = true := by
    refine ⟨u, hu, ?_⟩
    rcases hdup with h | h <;> simp [h]
  have hsome : (users.find? (fun v => v.email == email || v.mobile == mobile)).isSome :=
    List.find?_isSome.mpr hex
  obtain ⟨v, hv⟩ := Option.isSome_iff_exists.mp hsome
  simp [signup, hv]

/-- Witness for C8: registering a second account with `sampleUser`'s
email is rejected and the collection is unchanged. -/
theorem signup_duplicate_unchanged_witness :
    signup [sampleUser] "Mallory" "999" "a@x.com" "pw2" 3 none
      = ([sampleUser], .duplicate) :=
  signup_duplicate_unchanged [sampleUser] "Mallory" "999" "a@x.com" "pw2" 3 none
    sampleUser (by decide) (Or.inr (by decide))

/-- C9: a sign-in whose identifier matches no stored identity answers
401 with no token, as does one whose password fails the bcrypt check
against the matched identity's stored hash; a correct identifier and
password answer 200 with a token on the identity's email together with
its name and email. -/
theorem signin_spec (users : List User) (identifier password : String) :
    ((∀ u ∈ users, u.email ≠ identifier ∧ u.mobile ≠ identifier) →
        signin users identifier password = .invalidCredentials)
    ∧ (∀ u, users.find? (fun v => v.email == identifier || v.mobile == identifier) = some u →
        (bcryptCompare password u.password = false →
            signin users identifier password = .invalidCredentials)
        ∧ (bcryptCompare password u.password = true →
            signin users identifier password
              = .ok (jwtSign { email := u.email } JWT_SECRET) u.name u.email)) := by
  constructor
  · intro h
    have hfind : users.find? (fun v => v.email == identifier || v.mobile == identifier)
        = none :=
      List.find?_eq_none.mpr fun u hu => by simp [(h u hu).1, (h u hu).2]
    simp [signin, hfind]
  · intro u hu
    constructor
    · intro hbad
      simp [signin, hu, hbad]
    · intro hok
      simp [signin, hu, hok]

/-- Witness for C9: against a store holding only `sampleUser`, an
unknown identifier and a wrong password both answer 401, and the
correct email/password pair answers with a token, name and email. -/
theorem signin_spec_witness :
    signin [sampleUser] "ghost@x.com" "pw1" = .invalidCredentials
    ∧ signin [sampleUser] "a@x.com" "wrong" = .invalidCredentials
    ∧ signin [sampleUser] "a@x.com" "pw1"
        = .ok (jwtSign { email := "a@x.com" } JWT_SECRET) "Alice" "a@x.com" :=
  ⟨(signin_spec [sampleUser] "ghost@x.com" "pw1").1 (by decide),
   ((signin_spec [sampleUser] "a@x.com" "wrong").2 sampleUser (by decide)).1 (by decide),
   ((signin_spec [sampleUser] "a@x.com" "pw1").2 sampleUser (by decide)).2 (by decide)⟩

/-- C10: the admin signup and signin handlers compute, on every input,
the same answer and the same effect on the shared user collection as
the plain ones, so an admin account is indistinguishable from a
regular account. -/
theorem admin_routes_equal (users : List User)
    (name mobile email password identifier secret : String)
    (salt : Nat) (img : Option String) :
    adminsignup users name mobile email password salt img
      = signup users name mobile email password salt img
    ∧ adminsignin users identifier secret = signin users identifier secret :=
  ⟨rfl, rfl⟩

/-- Applying one ledger operation that is not a status update addressed
to the tracked id preserves the `StatusAt` invariant. -/
theorem statusAt_applyOp (s : Store) (oid : Nat) (st : OrderStatus) (op : Op)
    (h : StatusAt s oid st)
    (hop : ∀ stStr now, op ≠ Op.setStatusOp oid stStr now) :
    StatusAt (applyOp s op) oid st := by
  obtain ⟨hlt, hst⟩ := h
  cases op with
  | placeOp ud lines total pm now =>
    refine ⟨Nat.lt_succ_of_lt hlt, ?_⟩
    intro o ho hoid
    simp only [applyOp, placeOrder, List.mem_append, List.mem_singleton] at ho
    rcases ho with ho | ho
    · exact hst o ho hoid
    · rw [ho] at hoid
      simp at hoid
      exfalso
      omega
  | setStatusOp id stStr now =>
    have hid : id ≠ oid := fun he => hop stStr now (by rw [he])
    cases hp : parseStatus stStr with
    | none =>
      simp only [applyOp, setStatus, hp]
      exact ⟨hlt, hst⟩
    | some newSt =>
      cases hf : s.orders.find? (fun o => o.id == id) with
      | none =>
        simp only [applyOp, setStatus, hp, hf]
        exact ⟨hlt, hst⟩
      | some o₀ =>
        simp only [applyOp, setStatus, hp, hf]
        refine ⟨hlt, ?_⟩
        intro o ho hoid
        rw [List.mem_map] at ho
        obtain ⟨p, hpmem, hpo⟩ := ho
        by_cases hpid : (p.id == id) = true
        · rw [if_pos hpid] at hpo
          have h1 : o₀.id = id := by simpa using List.find?_some hf
          have h2 : o.id = o₀.id := by rw [← hpo]
          exact absurd hoid (by rw [h2, h1]; exact hid)
        · rw [if_neg hpid] at hpo
          exact hst o (hpo ▸ hpmem) hoid
  | removeOp id =>
    cases hf : s.orders.find? (fun o => o.id == id) with
    | none =>
      simp only [applyOp, removeOrder, hf]
      exact ⟨hlt, hst⟩
    | some o₀ =>
      simp only [applyOp, removeOrder, hf]
      refine ⟨hlt, ?_⟩
      intro o ho hoid
      rw [List.mem_filter] at ho
      exact hst o ho.1 hoid

/-- The `StatusAt` invariant is preserved along any sequence of ledger
operations containing no status update addressed to the tracked id. -/
theorem statusAt_foldl (ops : List Op) : ∀ (s : Store) (oid : Nat) (st : OrderStatus),
    StatusAt s oid st →
    (∀ id stStr now, Op.setStatusOp id stStr now ∈ ops → id ≠ oid) →
    StatusAt (ops.foldl applyOp s) oid st := by
  induction ops with
  | nil =>
    intro s oid st h _
    simpa using h
  | cons op ops ih =>
    intro s oid st h hops
    rw [List.foldl_cons]
    apply ih
    · exact statusAt_applyOp s oid st op h fun stStr now hopeq =>
        (hops oid stStr now (hopeq ▸ List.mem_cons_self op ops)) rfl
    · intro id stStr now hmem
      exact hops id stStr now (List.mem_cons_of_mem _ hmem)

/-- C3: a placed order is created with status `Pending` and stored;
through any subsequent sequence of ledger operations that contains no
status update addressed to it, every stored order carrying its id still
has status `Pending`; and in general no ledger operation other than a
status update addressed to a given id can change the status held at
that id. -/
theorem placed_pending_until_setStatus (s : Store) (ud : UserDetails)
    (lines : List OrderLine) (total : Int) (pm : String) (now : Nat) (ops : List Op)
    (hbound : ∀ o ∈ s.orders, o.id < s.nextId)
    (hops : ∀ id stStr now', Op.setStatusOp id stStr now' ∈ ops → id ≠ s.nextId) :
    (placeOrder s ud lines total pm now).2.status = .Pending
    ∧ (placeOrder s ud lines total pm now).2 ∈ (placeOrder s ud lines total pm now).1.orders
    ∧ (∀ o' ∈ (ops.foldl applyOp (placeOrder s ud lines total pm now).1).orders,
        o'.id = (placeOrder s ud lines total pm now).2.id → o'.status = .Pending)
    ∧ (∀ (oid : Nat) (st : OrderStatus), StatusAt s oid st →
        (∀ id stStr now', Op.setStatusOp id stStr now' ∈ ops → id ≠ oid) →
        StatusAt (ops.foldl applyOp s) oid st) := by
  refine ⟨rfl, by simp [placeOrder], ?_, fun oid st h h' => statusAt_foldl ops s oid st h h'⟩
  have hsa : StatusAt (placeOrder s ud lines total pm now).1 s.nextId .Pending := by
    refine ⟨Nat.lt_succ_self _, ?_⟩
    intro o ho hoid
    simp only [placeOrder, List.mem_append, List.mem_singleton] at ho
    rcases ho with ho | ho
    · exact absurd hoid (Nat.ne_of_lt (hbound o ho))
    · rw [ho]
  have hres := statusAt_foldl ops _ s.nextId .Pending hsa hops
  intro o' ho' hid
  exact hres.2 o' ho' hid

/-- Witness for C3: place an order into the empty store, then run a
status update addressed to a different id, a removal of an absent id
and a second placement; every stored order carrying the first order's
id still has status `Pending`. -/
theorem placed_pending_until_setStatus_witness :
    (placeOrder { orders := [], nextId := 0 } { name := "Alice", email := "a@x.com" }
        [{ foodName := "Burger", foodPrice := 5, quantity := 2 }] 10 "cash" 1).2.status
      = .Pending
    ∧ (placeOrder { orders := [], nextId := 0 } { name := "Alice", email := "a@x.com" }
        [{ foodName := "Burger", foodPrice := 5, quantity := 2 }] 10 "cash" 1).2
        ∈ (placeOrder { orders := [], nextId := 0 } { name := "Alice", email := "a@x.com" }
            [{ foodName := "Burger", foodPrice := 5, quantity := 2 }] 10 "cash" 1).1.orders
    ∧ (∀ o' ∈ (([Op.setStatusOp 3 "Delivered" 7, Op.removeOp 9,
            Op.placeOp { name := "Bob", email := "b@x.com" } [] 3 "card" 8]).foldl applyOp
          (placeOrder { orders := [], nextId := 0 } { name := "Alice", email := "a@x.com" }
            [{ foodName := "Burger", foodPrice := 5, quantity := 2 }] 10 "cash" 1).1).orders,
        o'.id = (placeOrder { orders := [], nextId := 0 } { name := "Alice", email := "a@x.com" }
            [{ foodName := "Burger", foodPrice := 5, quantity := 2 }] 10 "cash" 1).2.id →
          o'.status = .Pending) := by
  have h := placed_pending_until_setStatus { orders := [], nextId := 0 }
    { name := "Alice", email := "a@x.com" }
    [{ foodName := "Burger", foodPrice := 5, quantity := 2 }] 10 "cash" 1
    [Op.setStatusOp 3 "Delivered" 7, Op.removeOp 9,
      Op.placeOp { name := "Bob", email := "b@x.com" } [] 3 "card" 8]
    (by intro o ho; exact absurd ho (List.not_mem_nil o))
    (by
      intro id stStr now' hmem
      simp only [List.mem_cons, List.not_mem_nil, or_false] at hmem
      rcases hmem with h1 | h1 | h1
      · obtain ⟨h2, -, -⟩ := Op.setStatusOp.inj h1
        subst h2
        decide
      · exact absurd h1 (by simp)
      · exact absurd h1 (by simp))
  exact ⟨h.1, h.2.1, h.2.2.1⟩
